import Mathlib

/-!
Shallow embedding of `src/portilooplot/jupyter_plot.py` (class `ProgressPlot`)
and verification of the specification's claims about it.

Python values that can be passed as a `y` update are modelled by the
inductive `PyVal`; Python numbers (`int`/`float`) are modelled by `Rat`
(the normalizer only moves them around, never computes with them).
Python `dict`s are modelled by insertion-ordered association lists with
overwriting insertion, matching CPython dict semantics.
-/

set_option autoImplicit false

namespace Portilooplot

/-- Model of a Python value that may be supplied as an update `y`. -/
inductive PyVal where
  | num (q : Rat)
  | str (s : String)
  | pylist (xs : List PyVal)
  | pydict (entries : List (String × PyVal))
  | pynone

namespace PyVal

/-- Python `isinstance(y, dict)`. -/
def isMapping : PyVal → Bool
  | .pydict _ => true
  | _ => false

/-- Python `isinstance(y, list)`. -/
def isSequence : PyVal → Bool
  | .pylist _ => true
  | _ => false

/-- Python `isinstance(y, (int, float))`. -/
def isScalar : PyVal → Bool
  | .num _ => true
  | _ => false

/-- Underlying list of a `pylist`; `[]` on every other constructor. -/
def asList : PyVal → List PyVal
  | .pylist xs => xs
  | _ => []

/-- Python `len` of a list value. -/
def pyLen (y : PyVal) : Nat := y.asList.length

end PyVal

/-- Insertion into a Python dict: overwrite in place if the key exists,
otherwise append at the end (CPython insertion-order semantics). -/
def pyInsert (d : List (String × PyVal)) (k : String) (v : PyVal) :
    List (String × PyVal) :=
  if d.any (fun p => p.1 == k) then
    d.map (fun p => if p.1 == k then (k, v) else p)
  else
    d ++ [(k, v)]

/-- A Python dict comprehension over a list of key/value pairs. -/
def pyDictOfList (ps : List (String × PyVal)) : List (String × PyVal) :=
  ps.foldl (fun d p => pyInsert d p.1 p.2) []

/-- The distinct `ValueError`s raised by the update/normalization path of
`ProgressPlot`, one constructor per `raise` site in the source. -/
inductive UpdateError where
  | facetCountMismatch
  | innerNotList
  | lineCountMismatch
  | scalarShape
  | unsupportedType
  deriving DecidableEq, Repr

/-- The spec's taxonomy groups the cardinality/shape failures as
`ShapeMismatchError`, distinct from `UnsupportedTypeError`. -/
def UpdateError.isShapeMismatch : UpdateError → Bool
  | .unsupportedType => false
  | _ => true

/-- Errors that can be raised during `ProgressPlot.__init__`:
the unguarded `y_lim[0]` probe on an empty list raises `IndexError`;
the per-facet length check raises the configuration `ValueError`. -/
inductive InitError where
  | indexError
  | yLimCountMismatch
  deriving DecidableEq, Repr

/-- Embedding of `ProgressPlot._y_list_to_dict`: checks the outer length
against the facet count, that every element is a list, and every inner
length against the line count, then builds the nested dict comprehension
zipping facet and line names positionally with the nested values. -/
def y_list_to_dict (plots line_names : List String) (y : List PyVal) :
    Except UpdateError PyVal :=
  if !(y.length == plots.length) then
    .error .facetCountMismatch
  else if !(y.all fun yi => yi.isSequence) then
    .error .innerNotList
  else if !(y.all fun yi => yi.pyLen == line_names.length) then
    .error .lineCountMismatch
  else
    .ok (.pydict (pyDictOfList ((plots.zip y).map fun p =>
      (p.1, PyVal.pydict (pyDictOfList (line_names.zip p.2.asList))))))

/-- Embedding of `ProgressPlot._y_scalar_to_dict`: a scalar is only legal
with exactly one facet and exactly one line; `headD` models the `[0]`
indexing, which the guard makes safe. -/
def y_scalar_to_dict (plots line_names : List String) (q : Rat) :
    Except UpdateError PyVal :=
  if !(plots.length == 1 && line_names.length == 1) then
    .error .scalarShape
  else
    .ok (.pydict [(plots.headD "", .pydict [(line_names.headD "", .num q)])])

/-- Embedding of `ProgressPlot._parse_y`: dispatch on the runtime type of
`y` in the source's `isinstance` order (dict, then list, then int/float). -/
def parse_y (plots line_names : List String) : PyVal → Except UpdateError PyVal
  | .pydict d => .ok (.pydict d)
  | .pylist xs => y_list_to_dict plots line_names xs
  | .num q => y_scalar_to_dict plots line_names q
  | _ => .error .unsupportedType

/-- Embedding of the `y_lim` handling in `ProgressPlot.__init__`: probing
`y_lim[0]` on an empty list raises `IndexError`; a list-valued first element
selects the per-facet branch with its length check; otherwise the shared
pair is broadcast as `[y_lim] * len(plot_names)`. -/
def resolveYLim (plot_names : List String) (y_lim : List PyVal) :
    Except InitError (List PyVal) :=
  match y_lim with
  | [] => .error .indexError
  | y0 :: rest =>
    if y0.isSequence then
      if (y0 :: rest).length == plot_names.length then .ok (y0 :: rest)
      else .error .yLimCountMismatch
    else .ok (List.replicate plot_names.length (.pylist (y0 :: rest)))

/-- Modelled from the spec: the default palette substituted when no line
colors are supplied, taken from the external plotting library's standard
color cycle (not under `src/`); the claims only rely on it being nonempty. -/
def defaultPalette : List String :=
  ["#1f77b4", "#ff7f0e", "#2ca02c", "#d62728", "#9467bd",
   "#8c564b", "#e377c2", "#7f7f7f", "#bcbd22", "#17becf"]

/-- Embedding of the `if not line_colors:` substitution in
`ProgressPlot.__init__`: both `None` and the empty list are falsy in Python,
so both are replaced by the default palette. -/
def effectiveColors (line_colors : Option (List String)) : List String :=
  match line_colors with
  | none => defaultPalette
  | some l => if l.isEmpty then defaultPalette else l

/-- Embedding of the color-cycle comprehension in `ProgressPlot.__init__`:
line `i` receives color `i % len(line_colors)`; `getD` models the list
indexing, which is in range whenever the effective palette is nonempty. -/
def assignColors (line_names : List String) (line_colors : Option (List String)) :
    List String :=
  let lc := effectiveColors line_colors
  (List.range line_names.length).map fun i => lc.getD (i % lc.length) ""

/-- Mutable state of a `ProgressPlot` instance relevant to the update path:
the configured facet and line names (fixed after construction), the internal
iterator, the rolling-window capacity, the History buffer, and a count of
draw invocations (the observable effect of the display/draw path). -/
structure ProgressPlot where
  plots : List String
  line_names : List String
  iterator : Nat
  max_window_len : Nat
  history : List (Rat × PyVal)
  draws : Nat

/-- Modelled from the spec: pushing one Sample onto a History buffer with
FIFO eviction at capacity `cap`. -/
def windowPush (cap : Nat) (h : List (Rat × PyVal)) (xd : Rat × PyVal) :
    List (Rat × PyVal) :=
  let h2 := h ++ [xd]
  if cap < h2.length then h2.drop (h2.length - cap) else h2

namespace ProgressPlot

/-- Modelled from the spec: `append(x, y)` of the external base class
`PlotLearningCurve` (not under `src/`) pushes a new Sample onto History,
evicting the oldest once the window is full. It never fails. -/
def append (s : ProgressPlot) (x : Rat) (y : PyVal) : ProgressPlot :=
  { s with history := windowPush s.max_window_len s.history (x, y) }

/-- Modelled from the spec: `draw()` of the external base class serializes
History plus configuration and invokes the display callback once; the
embedding records the invocation count, which is what the claims observe. -/
def draw (s : ProgressPlot) : ProgressPlot :=
  { s with draws := s.draws + 1 }

/-- Embedding of `ProgressPlot._update_with_x`: normalize `y`, then append
and draw; a normalization error propagates before any mutation. -/
def update_with_x (s : ProgressPlot) (x : Rat) (y : PyVal) :
    ProgressPlot × Option UpdateError :=
  match parse_y s.plots s.line_names y with
  | .error e => (s, some e)
  | .ok d => ((s.append x d).draw, none)

/-- Embedding of `ProgressPlot._update_with_iter`: delegate to
`_update_with_x` at the current iterator, then increment the iterator;
an error in the delegate propagates before the increment. -/
def update_with_iter (s : ProgressPlot) (y : PyVal) :
    ProgressPlot × Option UpdateError :=
  match s.update_with_x (s.iterator : Rat) y with
  | (s', some e) => (s', some e)
  | (s', none) => ({ s' with iterator := s'.iterator + 1 }, none)

/-- One iteration of the `update_with_datapoints` loop body: parse already
done, append at the current iterator, then increment the iterator. -/
def step (s : ProgressPlot) (d : PyVal) : ProgressPlot :=
  { s.append (s.iterator : Rat) d with iterator := s.iterator + 1 }

/-- Embedding of `ProgressPlot.update_with_datapoints`: for each datapoint,
parse, append at the current iterator and increment; a parse error
propagates out of the loop, keeping the mutations already made; after the
whole sequence, draw once. -/
def update_with_datapoints (s : ProgressPlot) :
    List PyVal → ProgressPlot × Option UpdateError
  | [] => (s.draw, none)
  | y :: ys =>
    match parse_y s.plots s.line_names y with
    | .error e => (s, some e)
    | .ok d => (s.step d).update_with_datapoints ys

/-- A sequence of separate `update` calls in internal-iterator mode,
stopping at the first error (which would propagate to the caller). -/
def iterateUpdates (s : ProgressPlot) :
    List PyVal → ProgressPlot × Option UpdateError
  | [] => (s, none)
  | y :: ys =>
    match s.update_with_iter y with
    | (s', none) => s'.iterateUpdates ys
    | (s', some e) => (s', some e)

end ProgressPlot

/-- The normalized Samples produced by a run of valid updates starting at
iterator value `i`: each valid `y` contributes its parsed value paired with
the iterator value current at its turn. -/
def runSamples (plots line_names : List String) :
    Nat → List PyVal → List (Rat × PyVal)
  | _, [] => []
  | i, y :: ys =>
    match parse_y plots line_names y with
    | .ok d => ((i : Rat), d) :: runSamples plots line_names (i + 1) ys
    | .error _ => []

/-- A freshly constructed single-facet, single-line instance with the
default configuration: iterator 0, default window capacity 100, empty
History, no draw performed yet. -/
def exampleState : ProgressPlot := ⟨["plot"], ["line-1"], 0, 100, [], 0⟩

/-- Whether resolving the y-limit argument raises the unguarded
`IndexError` (as opposed to succeeding or raising the configuration
error). -/
def raisesIndexError (plot_names : List String) (y_lim : List PyVal) : Bool :=
  match resolveYLim plot_names y_lim with
  | .error .indexError => true
  | _ => false

/-! Projection lemmas for the state-transformer definitions. -/

@[simp]
theorem ProgressPlot.append_plots (s : ProgressPlot) (x : Rat) (y : PyVal) :
    (s.append x y).plots = s.plots := rfl

@[simp]
theorem ProgressPlot.append_line_names (s : ProgressPlot) (x : Rat) (y : PyVal) :
    (s.append x y).line_names = s.line_names := rfl

@[simp]
theorem ProgressPlot.append_iterator (s : ProgressPlot) (x : Rat) (y : PyVal) :
    (s.append x y).iterator = s.iterator := rfl

@[simp]
theorem ProgressPlot.append_max_window_len (s : ProgressPlot) (x : Rat) (y : PyVal) :
    (s.append x y).max_window_len = s.max_window_len := rfl

@[simp]
theorem ProgressPlot.append_draws (s : ProgressPlot) (x : Rat) (y : PyVal) :
    (s.append x y).draws = s.draws := rfl

@[simp]
theorem ProgressPlot.append_history (s : ProgressPlot) (x : Rat) (y : PyVal) :
    (s.append x y).history = windowPush s.max_window_len s.history (x, y) := rfl

@[simp]
theorem ProgressPlot.draw_plots (s : ProgressPlot) : s.draw.plots = s.plots := rfl

@[simp]
theorem ProgressPlot.draw_line_names (s : ProgressPlot) :
    s.draw.line_names = s.line_names := rfl

@[simp]
theorem ProgressPlot.draw_iterator (s : ProgressPlot) :
    s.draw.iterator = s.iterator := rfl

@[simp]
theorem ProgressPlot.draw_max_window_len (s : ProgressPlot) :
    s.draw.max_window_len = s.max_window_len := rfl

@[simp]
theorem ProgressPlot.draw_draws (s : ProgressPlot) : s.draw.draws = s.draws + 1 := rfl

@[simp]
theorem ProgressPlot.draw_history (s : ProgressPlot) : s.draw.history = s.history := rfl

@[simp]
theorem ProgressPlot.step_plots (s : ProgressPlot) (d : PyVal) :
    (s.step d).plots = s.plots := rfl

@[simp]
theorem ProgressPlot.step_line_names (s : ProgressPlot) (d : PyVal) :
    (s.step d).line_names = s.line_names := rfl

@[simp]
theorem ProgressPlot.step_iterator (s : ProgressPlot) (d : PyVal) :
    (s.step d).iterator = s.iterator + 1 := rfl

@[simp]
theorem ProgressPlot.step_max_window_len (s : ProgressPlot) (d : PyVal) :
    (s.step d).max_window_len = s.max_window_len := rfl

@[simp]
theorem ProgressPlot.step_draws (s : ProgressPlot) (d : PyVal) :
    (s.step d).draws = s.draws := rfl

@[simp]
theorem ProgressPlot.step_history (s : ProgressPlot) (d : PyVal) :
    (s.step d).history = windowPush s.max_window_len s.history ((s.iterator : Rat), d) := rfl

/-- C7: for every mapping-shaped update value, the normalizer returns it
unchanged: no structural validation of its keys against the configured
facet and line sets is performed, and the returned canonical mapping is
identical to the input mapping. -/
theorem parse_y_mapping_passthrough :
    ∀ (plots line_names : List String) (d : List (String × PyVal)),
      parse_y plots line_names (.pydict d) = .ok (.pydict d) :=
  fun _ _ _ => rfl

/-- C8: an update value that is neither a mapping, nor an ordered sequence,
nor a scalar number is rejected by the normalizer with the unsupported-type
error, an error kind distinct from the shape-mismatch failures, and the
state is left unchanged (no side effects). -/
theorem parse_y_unsupported_type :
    (∀ (plots line_names : List String) (y : PyVal),
        y.isMapping = false → y.isSequence = false → y.isScalar = false →
          parse_y plots line_names y = .error .unsupportedType)
    ∧ UpdateError.unsupportedType.isShapeMismatch = false
    ∧ (∀ (s : ProgressPlot) (x : Rat) (y : PyVal),
        y.isMapping = false → y.isSequence = false → y.isScalar = false →
          s.update_with_x x y = (s, some .unsupportedType)) := by
  have h1 : ∀ (plots line_names : List String) (y : PyVal),
      y.isMapping = false → y.isSequence = false → y.isScalar = false →
        parse_y plots line_names y = .error .unsupportedType := by
    intro plots line_names y hm hs hc
    cases y with
    | num q => simp [PyVal.isScalar] at hc
    | pylist xs => simp [PyVal.isSequence] at hs
    | pydict d => simp [PyVal.isMapping] at hm
    | str s => rfl
    | pynone => rfl
  refine ⟨h1, rfl, ?_⟩
  intro s x y hm hs hc
  simp [ProgressPlot.update_with_x, h1 s.plots s.line_names y hm hs hc]

/-- Witness for C8 at a concrete string-valued update. -/
theorem parse_y_unsupported_type_witness :
    parse_y ["plot"] ["line-1"] (.str "oops") = .error .unsupportedType
    ∧ exampleState.update_with_x 0 (.str "oops")
        = (exampleState, some .unsupportedType) :=
  ⟨parse_y_unsupported_type.1 ["plot"] ["line-1"] (.str "oops") rfl rfl rfl,
   parse_y_unsupported_type.2.2 exampleState 0 (.str "oops") rfl rfl rfl⟩

/-- C9: an empty y-limit argument makes construction fail with the
unguarded `IndexError` from probing `y_lim[0]` (not with the configuration
error), while no nonempty y-limit argument can raise `IndexError`: the
per-facet-versus-shared discrimination is total only on nonempty input. -/
theorem resolveYLim_empty_index_error :
    (∀ plot_names : List String,
        resolveYLim plot_names [] = .error .indexError)
    ∧ (∀ plot_names : List String, raisesIndexError plot_names [] = true)
    ∧ (∀ (plot_names : List String) (y0 : PyVal) (rest : List PyVal),
        raisesIndexError plot_names (y0 :: rest) = false) := by
  refine ⟨fun _ => rfl, fun _ => rfl, ?_⟩
  intro plot_names y0 rest
  by_cases hseq : y0.isSequence = true
  · by_cases hlen : ((y0 :: rest).length == plot_names.length) = true
    · have hres : resolveYLim plot_names (y0 :: rest) = .ok (y0 :: rest) := by
        simp only [resolveYLim, hseq, hlen, if_true]
      simp [raisesIndexError, hres]
    · have hlen' : ((y0 :: rest).length == plot_names.length) = false := by
        simpa using hlen
      have hres : resolveYLim plot_names (y0 :: rest)
          = .error .yLimCountMismatch := by
        simp only [resolveYLim, hseq, hlen', if_true, Bool.false_eq_true,
          if_false]
      simp [raisesIndexError, hres]
  · have hseq' : y0.isSequence = false := by simpa using hseq
    have hres : resolveYLim plot_names (y0 :: rest)
        = .ok (List.replicate plot_names.length (.pylist (y0 :: rest))) := by
      simp only [resolveYLim, hseq', Bool.false_eq_true, if_false]
    simp [raisesIndexError, hres]

/-- C4: a scalar update is normalized to the single-facet, single-line
canonical mapping exactly when one facet and one line are configured, and
is rejected with the shape-mismatch error for any other cardinality. -/
theorem parse_y_scalar :
    (∀ (p l : String) (q : Rat),
        parse_y [p] [l] (.num q) = .ok (.pydict [(p, .pydict [(l, .num q)])]))
    ∧ (∀ (plots line_names : List String) (q : Rat),
        ¬(plots.length = 1 ∧ line_names.length = 1) →
          parse_y plots line_names (.num q) = .error .scalarShape)
    ∧ UpdateError.scalarShape.isShapeMismatch = true := by
  refine ⟨fun _ _ _ => rfl, ?_, rfl⟩
  intro plots line_names q h
  have hb : (plots.length == 1 && line_names.length == 1) = false := by
    cases hh : (plots.length == 1 && line_names.length == 1) with
    | false => rfl
    | true =>
      exact absurd (by simpa [Bool.and_eq_true, beq_iff_eq] using hh) h
  simp [parse_y, y_scalar_to_dict, hb]

/-- Witness for C4: two facets with one line reject a scalar; one facet
with one line accepts it. -/
theorem parse_y_scalar_witness :
    parse_y ["a", "b"] ["l"] (.num 3) = .error .scalarShape
    ∧ parse_y ["a"] ["l"] (.num 3)
        = .ok (.pydict [("a", .pydict [("l", .num 3)])]) :=
  ⟨parse_y_scalar.2.1 ["a", "b"] ["l"] 3 (by simp),
   parse_y_scalar.1 "a" "l" 3⟩

/-- C5: a per-facet y-limit list whose length differs from the facet count
fails construction with the configuration error, while a shared pair (first
element not a list) is broadcast so that every facet receives it. -/
theorem resolveYLim_per_facet_and_broadcast :
    (∀ (plot_names : List String) (y0 : PyVal) (rest : List PyVal),
        y0.isSequence = true →
        (y0 :: rest).length ≠ plot_names.length →
          resolveYLim plot_names (y0 :: rest) = .error .yLimCountMismatch)
    ∧ (∀ (plot_names : List String) (y0 : PyVal) (rest : List PyVal),
        y0.isSequence = false →
          resolveYLim plot_names (y0 :: rest)
            = .ok (List.replicate plot_names.length (.pylist (y0 :: rest))))
    ∧ (∀ (plot_names : List String) (y0 : PyVal) (rest : List PyVal),
        y0.isSequence = true →
        (y0 :: rest).length = plot_names.length →
          resolveYLim plot_names (y0 :: rest) = .ok (y0 :: rest)) := by
  refine ⟨?_, ?_, ?_⟩
  · intro plot_names y0 rest hseq hne
    simp only [List.length_cons] at hne
    simp [resolveYLim, hseq, hne]
  · intro plot_names y0 rest hseq
    simp [resolveYLim, hseq]
  · intro plot_names y0 rest hseq heq
    simp [resolveYLim, hseq, heq]

/-- Witness for C5: two facets reject a length-one per-facet list and
broadcast a shared pair of bounds. -/
theorem resolveYLim_per_facet_and_broadcast_witness :
    resolveYLim ["p", "q"] [.pylist [.num 0, .num 1]]
      = .error .yLimCountMismatch
    ∧ resolveYLim ["p", "q"] [.pynone, .pynone]
        = .ok (List.replicate (["p", "q"] : List String).length
            (.pylist [.pynone, .pynone])) :=
  ⟨resolveYLim_per_facet_and_broadcast.1 ["p", "q"] (.pylist [.num 0, .num 1]) []
      rfl (by simp),
   resolveYLim_per_facet_and_broadcast.2.1 ["p", "q"] .pynone [.pynone] rfl⟩

/-- C10: an empty supplied color list is treated like an absent one — the
default palette is substituted before cycling, the effective palette is
nonempty (so the modulo indexing never divides by zero), and every line
receives a color. -/
theorem assignColors_empty_list_defaults :
    ∀ line_names : List String,
      assignColors line_names (some []) = assignColors line_names none
      ∧ effectiveColors (some []) = defaultPalette
      ∧ 0 < (effectiveColors (some [])).length
      ∧ (assignColors line_names (some [])).length = line_names.length := by
  intro line_names
  exact ⟨rfl, rfl, by simp [effectiveColors, defaultPalette],
    by simp [assignColors]⟩

/-- C6: with a nonempty supplied color list of length k, every configured
line receives exactly one color, the line at index i receiving the color
at index i mod k. -/
theorem assignColors_cycles (line_names colors : List String)
    (h : colors ≠ []) :
    (assignColors line_names (some colors)).length = line_names.length
    ∧ ∀ i, i < line_names.length →
        (assignColors line_names (some colors)).getD i ""
          = colors.getD (i % colors.length) "" := by
  have hec : effectiveColors (some colors) = colors := by
    have hne : colors.isEmpty = false := by
      cases colors with
      | nil => exact absurd rfl h
      | cons c cs => rfl
    simp [effectiveColors, hne]
  constructor
  · simp [assignColors, hec]
  · intro i hi
    simp only [assignColors, hec]
    have hlen1 : i < ((List.range line_names.length).map
        (fun i => colors.getD (i % colors.length) "")).length := by
      simpa using hi
    rw [List.getD_eq_getElem _ _ hlen1]
    simp [List.getElem_map, List.getElem_range]

/-- Witness for C6: with 3 lines and 2 colors the third line receives the
first color again, and with 2 lines and 1 color both lines receive it. -/
theorem assignColors_cycles_witness :
    (assignColors ["a", "b", "c"] (some ["r", "g"])).getD 2 ""
      = (["r", "g"] : List String).getD (2 % 2) ""
    ∧ (assignColors ["a", "b"] (some ["r"])).getD 1 ""
        = (["r"] : List String).getD (1 % 1) ""
    ∧ (assignColors ["a", "b"] (some ["r"])).getD 0 ""
        = (["r"] : List String).getD (0 % 1) "" :=
  ⟨(assignColors_cycles ["a", "b", "c"] ["r", "g"] (by simp)).2 2 (by simp),
   (assignColors_cycles ["a", "b"] ["r"] (by simp)).2 1 (by simp),
   (assignColors_cycles ["a", "b"] ["r"] (by simp)).2 0 (by simp)⟩

/-- A failing `update_with_datapoints` call never reaches the final
`draw()`: the draw count at the error state equals the one before the
call. -/
theorem datapoints_error_no_draw :
    ∀ (ys : List PyVal) (s s' : ProgressPlot) (e : UpdateError),
      s.update_with_datapoints ys = (s', some e) → s'.draws = s.draws := by
  intro ys
  induction ys with
  | nil =>
    intro s s' e h
    simp [ProgressPlot.update_with_datapoints] at h
  | cons y ys ih =>
    intro s s' e h
    simp only [ProgressPlot.update_with_datapoints] at h
    cases hp : parse_y s.plots s.line_names y with
    | error e' =>
      rw [hp] at h
      simp only [Prod.mk.injEq, Option.some.injEq] at h
      rw [← h.1]
    | ok d =>
      rw [hp] at h
      have := ih (s.step d) s' e h
      simpa using this

/-- C1 (amended): a failed normalization leaves the state untouched for
`update` in either mode, and for `update_with_datapoints` when the failing
value is the first element; when it is not, the elements preceding the
failing one remain applied (each appended at its iterator value, the
iterator incremented per element) and the final draw is never invoked. -/
theorem update_failure_atomicity :
    (∀ (s : ProgressPlot) (x : Rat) (y : PyVal) (e : UpdateError),
        parse_y s.plots s.line_names y = .error e →
          s.update_with_x x y = (s, some e))
    ∧ (∀ (s : ProgressPlot) (y : PyVal) (e : UpdateError),
        parse_y s.plots s.line_names y = .error e →
          s.update_with_iter y = (s, some e))
    ∧ (∀ (s : ProgressPlot) (y : PyVal) (ys : List PyVal) (e : UpdateError),
        parse_y s.plots s.line_names y = .error e →
          s.update_with_datapoints (y :: ys) = (s, some e))
    ∧ (∀ (s : ProgressPlot) (y d : PyVal) (ys : List PyVal),
        parse_y s.plots s.line_names y = .ok d →
          s.update_with_datapoints (y :: ys)
            = (s.step d).update_with_datapoints ys)
    ∧ (∀ (ys : List PyVal) (s s' : ProgressPlot) (e : UpdateError),
        s.update_with_datapoints ys = (s', some e) → s'.draws = s.draws) := by
  refine ⟨?_, ?_, ?_, ?_, datapoints_error_no_draw⟩
  · intro s x y e h
    simp [ProgressPlot.update_with_x, h]
  · intro s y e h
    simp [ProgressPlot.update_with_iter, ProgressPlot.update_with_x, h]
  · intro s y ys e h
    simp [ProgressPlot.update_with_datapoints, h]
  · intro s y d ys h
    simp [ProgressPlot.update_with_datapoints, h]

/-- Witness for the amended C1: a first-element failure leaves the fresh
instance untouched through each entry point. -/
theorem update_failure_atomicity_witness :
    exampleState.update_with_x 5 (.str "bad")
      = (exampleState, some .unsupportedType)
    ∧ exampleState.update_with_iter (.str "bad")
        = (exampleState, some .unsupportedType)
    ∧ exampleState.update_with_datapoints [.str "bad"]
        = (exampleState, some .unsupportedType) :=
  ⟨update_failure_atomicity.1 exampleState 5 (.str "bad") .unsupportedType rfl,
   update_failure_atomicity.2.1 exampleState (.str "bad") .unsupportedType rfl,
   update_failure_atomicity.2.2.1 exampleState (.str "bad") []
     .unsupportedType rfl⟩

/-- Counterexample to C1 as stated: on a fresh single-facet, single-line
instance, `update_with_datapoints` with a valid first value and an invalid
second value fails, yet the iterator has advanced and a Sample has been
appended to History — the call is not atomic. -/
theorem mid_sequence_failure_mutates_state :
    ((exampleState.update_with_datapoints
        [.num 1, .str "bad"]).2.isSome = true)
    ∧ (((exampleState.update_with_datapoints
        [.num 1, .str "bad"]).1.iterator == exampleState.iterator) = false)
    ∧ (((exampleState.update_with_datapoints
        [.num 1, .str "bad"]).1.history.length
          == exampleState.history.length) = false) := by
  decide

/-- Inserting a fresh key into a Python dict appends it at the end. -/
theorem pyInsert_of_not_mem (d : List (String × PyVal)) (k : String) (v : PyVal)
    (h : (d.any fun p => p.1 == k) = false) : pyInsert d k v = d ++ [(k, v)] := by
  simp only [pyInsert, h, Bool.false_eq_true, if_false]

/-- Folding a dict comprehension over pairs with pairwise-distinct keys,
all fresh for the accumulator, concatenates the pairs in order. -/
theorem foldl_pyInsert_of_disjoint :
    ∀ ps acc : List (String × PyVal),
      (ps.map Prod.fst).Nodup →
      (∀ k, k ∈ ps.map Prod.fst → k ∉ acc.map Prod.fst) →
      ps.foldl (fun d p => pyInsert d p.1 p.2) acc = acc ++ ps := by
  intro ps
  induction ps with
  | nil =>
    intro acc _ _
    simp
  | cons p ps ih =>
    intro acc hnd hdisj
    have hnotin : p.1 ∉ acc.map Prod.fst := hdisj p.1 (by simp)
    have hany : (acc.any fun q => q.1 == p.1) = false := by
      rw [List.any_eq_false]
      intro q hq
      simp only [beq_iff_eq]
      intro heq
      exact hnotin (List.mem_map.mpr ⟨q, hq, heq⟩)
    have hnd0 : p.1 ∉ ps.map Prod.fst ∧ (ps.map Prod.fst).Nodup := by
      simpa using hnd
    have hdisj' : ∀ k, k ∈ ps.map Prod.fst →
        k ∉ (acc ++ [(p.1, p.2)]).map Prod.fst := by
      intro k hk
      simp only [List.map_append, List.mem_append, List.map_cons,
        List.map_nil, List.mem_singleton, not_or]
      exact ⟨hdisj k (by simp [hk]), fun hkp => hnd0.1 (hkp ▸ hk)⟩
    rw [List.foldl_cons, pyInsert_of_not_mem acc p.1 p.2 hany,
      ih (acc ++ [(p.1, p.2)]) hnd0.2 hdisj']
    simp

/-- A Python dict comprehension over pairs with pairwise-distinct keys is
the list of pairs itself. -/
theorem pyDictOfList_of_nodup (ps : List (String × PyVal))
    (h : (ps.map Prod.fst).Nodup) : pyDictOfList ps = ps := by
  simpa [pyDictOfList] using foldl_pyInsert_of_disjoint ps [] h (by simp)

/-- C3: a list update with wrong outer length or a wrong inner length is
rejected with the respective shape-mismatch error, leaving the state (and
hence History) unchanged through the update path, while a well-shaped list
is normalized to the canonical mapping obtained by zipping facet and line
names positionally with the nested values. -/
theorem list_update_normalization :
    (∀ (plots line_names : List String) (y : List PyVal),
        y.length ≠ plots.length →
          y_list_to_dict plots line_names y = .error .facetCountMismatch)
    ∧ (∀ (plots line_names : List String) (y : List PyVal),
        y.length = plots.length →
        (∀ yi ∈ y, yi.isSequence = true) →
        (∃ yi ∈ y, yi.pyLen ≠ line_names.length) →
          y_list_to_dict plots line_names y = .error .lineCountMismatch)
    ∧ (UpdateError.facetCountMismatch.isShapeMismatch = true
        ∧ UpdateError.lineCountMismatch.isShapeMismatch = true)
    ∧ (∀ (s : ProgressPlot) (x : Rat) (y : List PyVal) (e : UpdateError),
        y_list_to_dict s.plots s.line_names y = .error e →
          s.update_with_x x (.pylist y) = (s, some e))
    ∧ (∀ (plots line_names : List String) (y : List PyVal),
        plots.Nodup → line_names.Nodup →
        y.length = plots.length →
        (∀ yi ∈ y, yi.isSequence = true) →
        (∀ yi ∈ y, yi.pyLen = line_names.length) →
          y_list_to_dict plots line_names y
            = .ok (.pydict ((plots.zip y).map fun p =>
                (p.1, PyVal.pydict (line_names.zip p.2.asList))))) := by
  refine ⟨?_, ?_, ⟨rfl, rfl⟩, ?_, ?_⟩
  · intro plots line_names y hne
    have hb : (y.length == plots.length) = false := by simpa using hne
    simp [y_list_to_dict, hb]
  · intro plots line_names y hlen hall hex
    have hb1 : (y.length == plots.length) = true := by simpa using hlen
    have hb2 : (y.all fun yi => yi.isSequence) = true := by
      rw [List.all_eq_true]
      exact hall
    have hb3 : (y.all fun yi => yi.pyLen == line_names.length) = false := by
      rw [List.all_eq_false]
      obtain ⟨yi, hyi, hne⟩ := hex
      exact ⟨yi, hyi, by simpa using hne⟩
    simp [y_list_to_dict, hb1, hb2, hb3]
  · intro s x y e h
    simp [ProgressPlot.update_with_x, parse_y, h]
  · intro plots line_names y hpnd hlnd hlen hall hinner
    have hb1 : (y.length == plots.length) = true := by simpa using hlen
    have hb2 : (y.all fun yi => yi.isSequence) = true := by
      rw [List.all_eq_true]
      exact hall
    have hb3 : (y.all fun yi => yi.pyLen == line_names.length) = true := by
      rw [List.all_eq_true]
      intro yi hyi
      simpa using hinner yi hyi
    simp only [y_list_to_dict, hb1, hb2, hb3, Bool.not_true,
      Bool.false_eq_true, if_false, Except.ok.injEq]
    have hmapeq : ((plots.zip y).map fun p =>
          (p.1, PyVal.pydict (pyDictOfList (line_names.zip p.2.asList))))
        = ((plots.zip y).map fun p =>
          (p.1, PyVal.pydict (line_names.zip p.2.asList))) := by
      apply List.map_congr_left
      rintro ⟨a, b⟩ hp
      have hb2' : b ∈ y := (List.of_mem_zip hp).2
      have hblen : b.asList.length = line_names.length := hinner b hb2'
      have hkeys : ((line_names.zip b.asList).map Prod.fst).Nodup := by
        rw [List.map_fst_zip line_names b.asList (le_of_eq hblen.symm)]
        exact hlnd
      rw [pyDictOfList_of_nodup _ hkeys]
    rw [hmapeq, pyDictOfList_of_nodup]
    rw [show ((plots.zip y).map fun p =>
          (p.1, PyVal.pydict (line_names.zip p.2.asList))).map Prod.fst
        = (plots.zip y).map Prod.fst from by
      simp [List.map_map, Function.comp]]
    rw [List.map_fst_zip plots y (le_of_eq hlen.symm)]
    exact hpnd

/-- Witness for C3: a two-facet instance rejects a one-element list, a
two-line instance rejects a one-element inner list, and a well-shaped
nested list is zipped into the canonical mapping. -/
theorem list_update_normalization_witness :
    y_list_to_dict ["p", "q"] ["l"] [.num 1] = .error .facetCountMismatch
    ∧ y_list_to_dict ["p"] ["l", "m"] [.pylist [.num 1]]
        = .error .lineCountMismatch
    ∧ y_list_to_dict ["p"] ["l", "m"] [.pylist [.num 1, .num 2]]
        = .ok (.pydict (((["p"] : List String).zip
            [PyVal.pylist [.num 1, .num 2]]).map fun p =>
              (p.1, PyVal.pydict ((["l", "m"] : List String).zip
                p.2.asList)))) :=
  ⟨list_update_normalization.1 ["p", "q"] ["l"] [.num 1] (by simp),
   list_update_normalization.2.1 ["p"] ["l", "m"] [.pylist [.num 1]]
     (by simp) (by simp [PyVal.isSequence])
     ⟨.pylist [.num 1], by simp, by simp [PyVal.pyLen, PyVal.asList]⟩,
   list_update_normalization.2.2.2.2 ["p"] ["l", "m"]
     [.pylist [.num 1, .num 2]] (by simp) (by simp) (by simp)
     (by simp [PyVal.isSequence]) (by simp [PyVal.pyLen, PyVal.asList])⟩

/-- A run of `update_with_datapoints` over valid datapoints succeeds,
advances the iterator once per datapoint, draws exactly once, and pushes
exactly the normalized samples (each at its iterator value) into History. -/
theorem datapoints_run :
    ∀ (ys : List PyVal) (s : ProgressPlot),
      (∀ y ∈ ys, ∃ d, parse_y s.plots s.line_names y = .ok d) →
      (s.update_with_datapoints ys).2 = none
      ∧ (s.update_with_datapoints ys).1.iterator = s.iterator + ys.length
      ∧ (s.update_with_datapoints ys).1.draws = s.draws + 1
      ∧ (s.update_with_datapoints ys).1.history
          = (runSamples s.plots s.line_names s.iterator ys).foldl
              (windowPush s.max_window_len) s.history := by
  intro ys
  induction ys with
  | nil =>
    intro s h
    exact ⟨rfl, rfl, rfl, by simp [ProgressPlot.update_with_datapoints, runSamples]⟩
  | cons y ys ih =>
    intro s h
    obtain ⟨d, hd⟩ := h y (by simp)
    have hrest : ∀ y' ∈ ys, ∃ d',
        parse_y (s.step d).plots (s.step d).line_names y' = .ok d' := by
      intro y' hy'
      simpa using h y' (by simp [hy'])
    have H := ih (s.step d) hrest
    have heq : s.update_with_datapoints (y :: ys)
        = (s.step d).update_with_datapoints ys := by
      simp [ProgressPlot.update_with_datapoints, hd]
    refine ⟨?_, ?_, ?_, ?_⟩
    · rw [heq]
      exact H.1
    · rw [heq, H.2.1]
      simp only [ProgressPlot.step_iterator, List.length_cons]
      omega
    · rw [heq, H.2.2.1]
      simp
    · rw [heq, H.2.2.2]
      simp only [ProgressPlot.step_plots, ProgressPlot.step_line_names,
        ProgressPlot.step_iterator, ProgressPlot.step_max_window_len,
        ProgressPlot.step_history]
      simp [runSamples, hd]

/-- A run of separate `update` calls in internal-iterator mode over valid
values succeeds, advances the iterator once per call, draws once per call,
and pushes exactly the same normalized samples into History as the batched
entry point does. -/
theorem iterate_run :
    ∀ (ys : List PyVal) (s : ProgressPlot),
      (∀ y ∈ ys, ∃ d, parse_y s.plots s.line_names y = .ok d) →
      (s.iterateUpdates ys).2 = none
      ∧ (s.iterateUpdates ys).1.iterator = s.iterator + ys.length
      ∧ (s.iterateUpdates ys).1.draws = s.draws + ys.length
      ∧ (s.iterateUpdates ys).1.history
          = (runSamples s.plots s.line_names s.iterator ys).foldl
              (windowPush s.max_window_len) s.history := by
  intro ys
  induction ys with
  | nil =>
    intro s h
    exact ⟨rfl, rfl, rfl, by simp [ProgressPlot.iterateUpdates, runSamples]⟩
  | cons y ys ih =>
    intro s h
    obtain ⟨d, hd⟩ := h y (by simp)
    have hstep : s.update_with_iter y
        = ({ s.step d with draws := s.draws + 1 }, none) := by
      simp only [ProgressPlot.update_with_iter, ProgressPlot.update_with_x, hd]
      rfl
    have heq : s.iterateUpdates (y :: ys)
        = ({ s.step d with draws := s.draws + 1 } : ProgressPlot).iterateUpdates ys := by
      simp [ProgressPlot.iterateUpdates, hstep]
    have hrest : ∀ y' ∈ ys, ∃ d',
        parse_y ({ s.step d with draws := s.draws + 1 } : ProgressPlot).plots
          ({ s.step d with draws := s.draws + 1 } : ProgressPlot).line_names y'
          = .ok d' := by
      intro y' hy'
      simpa using h y' (by simp [hy'])
    have H := ih { s.step d with draws := s.draws + 1 } hrest
    refine ⟨?_, ?_, ?_, ?_⟩
    · rw [heq]
      exact H.1
    · rw [heq, H.2.1]
      simp only [List.length_cons]
      show (s.step d).iterator + ys.length = s.iterator + (ys.length + 1)
      simp only [ProgressPlot.step_iterator]
      omega
    · rw [heq, H.2.2.1]
      simp only [List.length_cons]
      omega
    · rw [heq, H.2.2.2]
      show (runSamples (s.step d).plots (s.step d).line_names
            (s.step d).iterator ys).foldl
          (windowPush (s.step d).max_window_len) (s.step d).history
        = (runSamples s.plots s.line_names s.iterator (y :: ys)).foldl
            (windowPush s.max_window_len) s.history
      simp only [ProgressPlot.step_plots, ProgressPlot.step_line_names,
        ProgressPlot.step_iterator, ProgressPlot.step_max_window_len,
        ProgressPlot.step_history]
      simp [runSamples, hd]

/-- C2: over a sequence of n valid raw y values, `update_with_datapoints`
normalizes each value, appends it at the current iterator value (History
receives exactly the run of normalized samples), leaves the iterator larger
by n, and draws exactly once; n separate `update` calls in
internal-iterator mode produce the same History and iterator but draw n
times. -/
theorem batched_and_percall_updates (s : ProgressPlot) (ys : List PyVal)
    (h : ∀ y ∈ ys, ∃ d, parse_y s.plots s.line_names y = .ok d) :
    (s.update_with_datapoints ys).2 = none
    ∧ (s.update_with_datapoints ys).1.iterator = s.iterator + ys.length
    ∧ (s.update_with_datapoints ys).1.draws = s.draws + 1
    ∧ (s.update_with_datapoints ys).1.history
        = (runSamples s.plots s.line_names s.iterator ys).foldl
            (windowPush s.max_window_len) s.history
    ∧ (s.iterateUpdates ys).2 = none
    ∧ (s.iterateUpdates ys).1.iterator = s.iterator + ys.length
    ∧ (s.iterateUpdates ys).1.draws = s.draws + ys.length
    ∧ (s.iterateUpdates ys).1.history
        = (runSamples s.plots s.line_names s.iterator ys).foldl
            (windowPush s.max_window_len) s.history := by
  obtain ⟨a1, a2, a3, a4⟩ := datapoints_run ys s h
  obtain ⟨b1, b2, b3, b4⟩ := iterate_run ys s h
  exact ⟨a1, a2, a3, a4, b1, b2, b3, b4⟩

/-- Witness for C2: updating a fresh single-facet, single-line instance
with three values leaves the iterator at 3 with one draw through the
batched entry point, and three draws through separate update calls. -/
theorem batched_and_percall_updates_witness :
    (exampleState.update_with_datapoints [.num 1, .num 2, .num 3]).1.iterator
      = exampleState.iterator + 3
    ∧ (exampleState.update_with_datapoints [.num 1, .num 2, .num 3]).1.draws
        = exampleState.draws + 1
    ∧ (exampleState.iterateUpdates [.num 1, .num 2, .num 3]).1.draws
        = exampleState.draws + 3
    ∧ (exampleState.update_with_datapoints [.num 1, .num 2, .num 3]).2
        = none := by
  have H := batched_and_percall_updates exampleState [.num 1, .num 2, .num 3]
    (by
      intro y hy
      simp only [List.mem_cons, List.not_mem_nil, or_false] at hy
      rcases hy with rfl | rfl | rfl <;> exact ⟨_, rfl⟩)
  exact ⟨H.2.1, H.2.2.1, H.2.2.2.2.2.2.1, H.1⟩

end Portilooplot
